import Mathlib

/-!
# Verification of the jocarsa-darkorchid signaling broker

Shallow embedding of the WebSocket signaling server (`server_ssl.js`):
the in-memory registry (`teacherClient` / `students`), the message
router (`join` / `offer` / `answer` / `ice-candidate` dispatch), the
relay (`forwardToStudent`), the roster broadcast
(`broadcastAttendantsList`) and the per-connection close handler.

Transports are modelled by numeric connection identifiers; a transport
is open exactly when it is a member of `ServerState.conns` (the model
of `wss.clients`).  Client ids are opaque tokens modelled as naturals:
`generateId()` is modelled by an abstract generator `gen : Nat → Nat`
applied to a monotone counter, so that distinct calls draw
`gen 0, gen 1, …`; freshness of ids is the hypothesis
`Function.Injective gen`.
-/

/-- A registered participant as stored by the server:
`{ ws, id, name, role }`. -/
structure Client where
  ws : Nat
  id : Nat
  name : Option String
  role : String
  deriving Repr, DecidableEq

/-- The per-connection closure variables of the `connection` handler:
`clientId`, `role`, `name` (all start as `null`). -/
structure ConnVars where
  clientId : Option Nat := none
  role : Option String := none
  name : Option String := none
  deriving Repr, DecidableEq

/-- A socket currently in `wss.clients`, with its closure variables. -/
structure Conn where
  cid : Nat
  vars : ConnVars
  deriving Repr, DecidableEq

/-- Global server state: the presenter slot, the student list, the set
of live sockets and the id-generation counter. -/
structure ServerState where
  teacherClient : Option Client := none
  students : List Client := []
  conns : List Conn := []
  nextId : Nat := 0
  deriving Repr, DecidableEq

/-- A parsed inbound message; absent fields are `none` (undefined). -/
structure Msg where
  type : String
  role : Option String := none
  name : Option String := none
  studentId : Option Nat := none
  sdp : Option String := none
  target : Option String := none
  candidate : Option String := none
  deriving Repr, DecidableEq

/-- One entry of the roster built by `broadcastAttendantsList`. -/
structure Attendant where
  id : Nat
  name : Option String
  role : String
  deriving Repr, DecidableEq

/-- Outbound messages the server can emit. -/
inductive OutMsg where
  | joined (role : Option String) (id : Nat)
  | studentJoined (studentId : Nat) (name : Option String)
  | offer (sdp : Option String) (studentId : Option Nat)
  | answer (studentId : Option Nat) (sdp : Option String)
  | iceCandidate (target : String) (studentId : Option Nat) (candidate : Option String)
  | studentLeft (studentId : Option Nat)
  | attendantsList (list : List Attendant)
  deriving Repr, DecidableEq

/-- Transport-level events driving the broker: a new socket, an inbound
frame (`none` = unparseable payload), or a socket closing. -/
inductive Event where
  | connect (c : Nat)
  | message (c : Nat) (data : Option Msg)
  | close (c : Nat)
  deriving Repr, DecidableEq

/-- `readyState === OPEN`: the socket is among the live sockets. -/
def isOpen (st : ServerState) (c : Nat) : Bool :=
  st.conns.any (fun p => p.cid = c)

/-- The roster list `all` of `broadcastAttendantsList`: the teacher
first (if present), then every student, each as `{id, name, role}`. -/
def snapshot (st : ServerState) : List Attendant :=
  (match st.teacherClient with
   | some t => [⟨t.id, t.name, "teacher"⟩]
   | none => []) ++ st.students.map (fun s => ⟨s.id, s.name, "student"⟩)

/-- Sending one message to each of the listed sockets. -/
def broadcastList (conns : List Conn) (roster : List Attendant) :
    List (Nat × OutMsg) :=
  conns.map (fun p => (p.cid, OutMsg.attendantsList roster))

/-- `broadcastAttendantsList()`: push the roster to every open socket. -/
def broadcastAttendantsList (st : ServerState) : List (Nat × OutMsg) :=
  broadcastList st.conns (snapshot st)

/-- `teacherClient && teacherClient.ws.readyState === OPEN ? send : skip`. -/
def notifyTeacher (st : ServerState) (m : OutMsg) : List (Nat × OutMsg) :=
  match st.teacherClient with
  | some t => if isOpen st t.ws then [(t.ws, m)] else []
  | none => []

/-- `forwardToStudent(studentId, msgObj)`: look the student up by id;
deliver only if found and its socket is open. -/
def forwardToStudent (st : ServerState) (studentId : Option Nat) (m : OutMsg) :
    List (Nat × OutMsg) :=
  match st.students.find? (fun s => some s.id = studentId) with
  | some s => if isOpen st s.ws then [(s.ws, m)] else []
  | none => []

/-- The socket list after the `join` case stores `clientId`, `role` and
`name` into the joining socket's closure variables. -/
def joinConns (gen : Nat → Nat) (st : ServerState) (c : Nat) (m : Msg) :
    List Conn :=
  st.conns.map
    (fun p => if p.cid = c then ⟨p.cid, ⟨some (gen st.nextId), m.role, m.name⟩⟩ else p)

/-- State after `teacherClient = { ws, id, name, role: 'teacher' }`. -/
def joinedTeacherState (gen : Nat → Nat) (st : ServerState) (c : Nat) (m : Msg) :
    ServerState :=
  { st with teacherClient := some ⟨c, gen st.nextId, m.name, "teacher"⟩,
            conns := joinConns gen st c m, nextId := st.nextId + 1 }

/-- State after `students.push({ ws, id, name, role: 'student' })`. -/
def joinedStudentState (gen : Nat → Nat) (st : ServerState) (c : Nat) (m : Msg) :
    ServerState :=
  { st with students := st.students ++ [⟨c, gen st.nextId, m.name, "student"⟩],
            conns := joinConns gen st c m, nextId := st.nextId + 1 }

/-- The `join` case of the message handler: assign a fresh id, store the
closure variables, fill the teacher slot or push a student, reply
`joined`, notify the teacher of a new student, broadcast the roster. -/
def handleJoin (gen : Nat → Nat) (st : ServerState) (c : Nat) (m : Msg) :
    ServerState × List (Nat × OutMsg) :=
  if m.role = some "teacher" then
    (joinedTeacherState gen st c m,
     (c, OutMsg.joined m.role (gen st.nextId)) ::
       broadcastAttendantsList (joinedTeacherState gen st c m))
  else
    (joinedStudentState gen st c m,
     (c, OutMsg.joined m.role (gen st.nextId)) ::
       (notifyTeacher st (OutMsg.studentJoined (gen st.nextId) m.name) ++
         broadcastAttendantsList (joinedStudentState gen st c m)))

/-- The `switch (msg.type)` dispatch of the message handler. -/
def handleMsg (gen : Nat → Nat) (st : ServerState) (c : Nat) (m : Msg) :
    ServerState × List (Nat × OutMsg) :=
  if m.type = "join" then
    handleJoin gen st c m
  else if m.type = "offer" then
    (st, forwardToStudent st m.studentId (OutMsg.offer m.sdp m.studentId))
  else if m.type = "answer" then
    (st, notifyTeacher st (OutMsg.answer m.studentId m.sdp))
  else if m.type = "ice-candidate" then
    if m.target = some "teacher" then
      (st, notifyTeacher st (OutMsg.iceCandidate "teacher" m.studentId m.candidate))
    else
      (st, forwardToStudent st m.studentId
        (OutMsg.iceCandidate "student" m.studentId m.candidate))
  else
    (st, [])

/-- The closing socket leaves `wss.clients`. -/
def removeConn (st : ServerState) (c : Nat) : ServerState :=
  { st with conns := st.conns.filter (fun q => ¬ q.cid = c) }

/-- `students = students.filter(s => s.id !== clientId)`. -/
def removeStudent (st : ServerState) (cid? : Option Nat) : ServerState :=
  { st with students := st.students.filter (fun s => ¬ some s.id = cid?) }

/-- `teacherClient = null`. -/
def clearTeacher (st : ServerState) : ServerState :=
  { st with teacherClient := none }

/-- The socket `close` handler: the socket leaves `wss.clients`; if the
closing id is the teacher's, clear the slot, otherwise filter the
students and tell the teacher `student-left`; then broadcast. -/
def handleClose (st : ServerState) (c : Nat) :
    ServerState × List (Nat × OutMsg) :=
  match st.conns.find? (fun p => p.cid = c) with
  | none => (st, [])
  | some p =>
    match st.teacherClient with
    | some t =>
      if some t.id = p.vars.clientId then
        (clearTeacher (removeConn st c),
         broadcastAttendantsList (clearTeacher (removeConn st c)))
      else
        (removeStudent (removeConn st c) p.vars.clientId,
         notifyTeacher (removeStudent (removeConn st c) p.vars.clientId)
             (OutMsg.studentLeft p.vars.clientId) ++
           broadcastAttendantsList (removeStudent (removeConn st c) p.vars.clientId))
    | none =>
      (removeStudent (removeConn st c) p.vars.clientId,
       broadcastAttendantsList (removeStudent (removeConn st c) p.vars.clientId))

/-- One transport event processed by the broker: new state plus the
list of (socket, message) sends it performs, in order. -/
def step (gen : Nat → Nat) (st : ServerState) (ev : Event) :
    ServerState × List (Nat × OutMsg) :=
  match ev with
  | .connect c => ({ st with conns := st.conns ++ [⟨c, {}⟩] }, [])
  | .message c data =>
    if (st.conns.find? (fun p => p.cid = c)).isSome then
      match data with
      | none => (st, [])
      | some m => handleMsg gen st c m
    else (st, [])
  | .close c => handleClose st c

/-- The state after an event. -/
def postState (gen : Nat → Nat) (st : ServerState) (ev : Event) : ServerState :=
  (step gen st ev).1

/-- The messages sent while handling an event. -/
def outputs (gen : Nat → Nat) (st : ServerState) (ev : Event) :
    List (Nat × OutMsg) :=
  (step gen st ev).2

/-- Run a sequence of events from a given state. -/
def runFrom (gen : Nat → Nat) (st : ServerState) (evs : List Event) :
    ServerState :=
  evs.foldl (fun s ev => postState gen s ev) st

/-- Run a sequence of events from the initial (empty) server state. -/
def run (gen : Nat → Nat) (evs : List Event) : ServerState :=
  runFrom gen {} evs

/-- Is an outbound message a roster (`attendants-list`) message? -/
def isAttListMsg (m : OutMsg) : Bool :=
  match m with
  | OutMsg.attendantsList _ => true
  | _ => false

/-- The roster messages among a list of sends. -/
def attMsgs (out : List (Nat × OutMsg)) : List (Nat × OutMsg) :=
  out.filter (fun p => isAttListMsg p.2)

/-- Is an outbound message a `student-left` message? -/
def isStudentLeftMsg (m : OutMsg) : Bool :=
  match m with
  | OutMsg.studentLeft _ => true
  | _ => false

/-- The `student-left` messages among a list of sends. -/
def slMsgs (out : List (Nat × OutMsg)) : List (Nat × OutMsg) :=
  out.filter (fun p => isStudentLeftMsg p.2)

lemma attMsgs_broadcastList (conns : List Conn) (roster : List Attendant) :
    attMsgs (broadcastList conns roster) = broadcastList conns roster := by
  induction conns with
  | nil => rfl
  | cons p l ih =>
    simp only [broadcastList, List.map_cons] at *
    simp [attMsgs, isAttListMsg]

lemma slMsgs_broadcastList (conns : List Conn) (roster : List Attendant) :
    slMsgs (broadcastList conns roster) = [] := by
  induction conns with
  | nil => rfl
  | cons p l ih =>
    simp only [broadcastList, List.map_cons] at *
    simp [slMsgs, isStudentLeftMsg]

lemma attMsgs_notifyTeacher (st : ServerState) (m : OutMsg)
    (h : isAttListMsg m = false) : attMsgs (notifyTeacher st m) = [] := by
  unfold notifyTeacher
  cases st.teacherClient with
  | none => rfl
  | some t =>
    by_cases ho : isOpen st t.ws <;> simp [ho, attMsgs, h]

/-- Freshness invariant on registry ids: every stored id was drawn from
the generator below the current counter, student ids are pairwise
distinct, and the teacher id is distinct from all student ids. -/
structure IdsFresh (gen : Nat → Nat) (st : ServerState) : Prop where
  studentBound : ∀ s ∈ st.students, ∃ k, k < st.nextId ∧ s.id = gen k
  teacherBound : ∀ t, st.teacherClient = some t → ∃ k, k < st.nextId ∧ t.id = gen k
  studentsNodup : (st.students.map Client.id).Nodup
  teacherNotStudent : ∀ t, st.teacherClient = some t → ∀ s ∈ st.students, t.id ≠ s.id

lemma idsFresh_init (gen : Nat → Nat) : IdsFresh gen {} := by
  constructor <;> simp [ServerState.students, ServerState.teacherClient]

lemma handleMsg_fst_of_ne_join (gen : Nat → Nat) (st : ServerState) (c : Nat)
    (m : Msg) (hj : ¬ m.type = "join") : (handleMsg gen st c m).1 = st := by
  unfold handleMsg
  rw [if_neg hj]
  split_ifs <;> rfl

lemma idsFresh_joinedTeacherState (gen : Nat → Nat) (hinj : Function.Injective gen)
    (st : ServerState) (c : Nat) (m : Msg) (h : IdsFresh gen st) :
    IdsFresh gen (joinedTeacherState gen st c m) := by
  constructor
  · intro s hs
    obtain ⟨k, hk, he⟩ := h.studentBound s hs
    exact ⟨k, Nat.lt_succ_of_lt hk, he⟩
  · intro t ht
    have ht' := Option.some.inj ht
    subst ht'
    exact ⟨st.nextId, Nat.lt_succ_self _, rfl⟩
  · exact h.studentsNodup
  · intro t ht s hs
    have ht' := Option.some.inj ht
    subst ht'
    obtain ⟨k, hk, he⟩ := h.studentBound s hs
    show gen st.nextId ≠ s.id
    rw [he]
    intro hgen
    exact absurd (hinj hgen) (Nat.ne_of_gt hk)

lemma idsFresh_joinedStudentState (gen : Nat → Nat) (hinj : Function.Injective gen)
    (st : ServerState) (c : Nat) (m : Msg) (h : IdsFresh gen st) :
    IdsFresh gen (joinedStudentState gen st c m) := by
  constructor
  · intro s hs
    rcases List.mem_append.mp hs with hs0 | hs1
    · obtain ⟨k, hk, he⟩ := h.studentBound s hs0
      exact ⟨k, Nat.lt_succ_of_lt hk, he⟩
    · have : s = ⟨c, gen st.nextId, m.name, "student"⟩ := by simpa using hs1
      exact ⟨st.nextId, Nat.lt_succ_self _, by rw [this]⟩
  · intro t ht
    obtain ⟨k, hk, he⟩ := h.teacherBound t ht
    exact ⟨k, Nat.lt_succ_of_lt hk, he⟩
  · show (List.map Client.id
      (st.students ++ [⟨c, gen st.nextId, m.name, "student"⟩])).Nodup
    rw [List.map_append]
    refine List.Nodup.append h.studentsNodup (List.nodup_singleton _) ?_
    intro x hx hx'
    simp only [List.map_cons, List.map_nil, List.mem_singleton] at hx'
    subst hx'
    obtain ⟨s, hs, he⟩ := List.mem_map.mp hx
    obtain ⟨k, hk, hke⟩ := h.studentBound s hs
    have hkey : gen st.nextId = gen k := he ▸ hke ▸ rfl
    exact absurd (hinj hkey) (Nat.ne_of_gt hk)
  · intro t ht s hs
    have ht' : st.teacherClient = some t := ht
    rcases List.mem_append.mp hs with hs0 | hs1
    · exact h.teacherNotStudent t ht' s hs0
    · obtain ⟨k, hk, he⟩ := h.teacherBound t ht'
      have hss : s = ⟨c, gen st.nextId, m.name, "student"⟩ := by simpa using hs1
      rw [hss, he]
      intro hgen
      exact absurd (hinj hgen) (Nat.ne_of_lt hk)

lemma idsFresh_handleJoin (gen : Nat → Nat) (hinj : Function.Injective gen)
    (st : ServerState) (c : Nat) (m : Msg) (h : IdsFresh gen st) :
    IdsFresh gen (handleJoin gen st c m).1 := by
  unfold handleJoin
  split_ifs
  · exact idsFresh_joinedTeacherState gen hinj st c m h
  · exact idsFresh_joinedStudentState gen hinj st c m h

lemma idsFresh_removeConn (gen : Nat → Nat) (st : ServerState) (c : Nat)
    (h : IdsFresh gen st) : IdsFresh gen (removeConn st c) :=
  ⟨h.studentBound, h.teacherBound, h.studentsNodup, h.teacherNotStudent⟩

lemma idsFresh_removeStudent (gen : Nat → Nat) (st : ServerState) (cid? : Option Nat)
    (h : IdsFresh gen st) : IdsFresh gen (removeStudent st cid?) := by
  constructor
  · intro s hs
    exact h.studentBound s (List.mem_of_mem_filter hs)
  · exact h.teacherBound
  · exact h.studentsNodup.sublist (List.Sublist.map _ (List.filter_sublist _))
  · intro t ht s hs
    exact h.teacherNotStudent t ht s (List.mem_of_mem_filter hs)

lemma idsFresh_clearTeacher (gen : Nat → Nat) (st : ServerState)
    (h : IdsFresh gen st) : IdsFresh gen (clearTeacher st) := by
  constructor
  · exact h.studentBound
  · intro t ht
    exact absurd ht (by simp [clearTeacher])
  · exact h.studentsNodup
  · intro t ht
    exact absurd ht (by simp [clearTeacher])

lemma step_connect_def (gen : Nat → Nat) (st : ServerState) (c : Nat) :
    step gen st (.connect c) = ({ st with conns := st.conns ++ [⟨c, {}⟩] }, []) := rfl

lemma step_message_def (gen : Nat → Nat) (st : ServerState) (c : Nat)
    (data : Option Msg) :
    step gen st (.message c data) =
      if (st.conns.find? (fun p => p.cid = c)).isSome then
        match data with
        | none => (st, [])
        | some m => handleMsg gen st c m
      else (st, []) := rfl

lemma step_close_def (gen : Nat → Nat) (st : ServerState) (c : Nat) :
    step gen st (.close c) = handleClose st c := rfl

lemma idsFresh_handleClose (gen : Nat → Nat) (st : ServerState) (c : Nat)
    (h : IdsFresh gen st) : IdsFresh gen (handleClose st c).1 := by
  unfold handleClose
  split
  · exact h
  · split
    · split_ifs
      · exact idsFresh_clearTeacher gen _ (idsFresh_removeConn gen st c h)
      · exact idsFresh_removeStudent gen _ _ (idsFresh_removeConn gen st c h)
    · exact idsFresh_removeStudent gen _ _ (idsFresh_removeConn gen st c h)

lemma idsFresh_step (gen : Nat → Nat) (hinj : Function.Injective gen)
    (st : ServerState) (ev : Event) (h : IdsFresh gen st) :
    IdsFresh gen (postState gen st ev) := by
  cases ev with
  | connect c =>
    exact ⟨h.studentBound, h.teacherBound, h.studentsNodup, h.teacherNotStudent⟩
  | message c data =>
    unfold postState
    rw [step_message_def]
    by_cases hc : (st.conns.find? (fun p => p.cid = c)).isSome
    · rw [if_pos hc]
      cases data with
      | none => exact h
      | some m =>
        by_cases hj : m.type = "join"
        · show IdsFresh gen (handleMsg gen st c m).1
          unfold handleMsg
          rw [if_pos hj]
          exact idsFresh_handleJoin gen hinj st c m h
        · show IdsFresh gen (handleMsg gen st c m).1
          rw [handleMsg_fst_of_ne_join gen st c m hj]
          exact h
    · rw [if_neg hc]
      exact h
  | close c =>
    unfold postState
    rw [step_close_def]
    exact idsFresh_handleClose gen st c h

lemma idsFresh_runFrom (gen : Nat → Nat) (hinj : Function.Injective gen)
    (st : ServerState) (evs : List Event) (h : IdsFresh gen st) :
    IdsFresh gen (runFrom gen st evs) := by
  induction evs generalizing st with
  | nil => exact h
  | cons ev evs ih => exact ih (postState gen st ev) (idsFresh_step gen hinj st ev h)

lemma idsFresh_run (gen : Nat → Nat) (hinj : Function.Injective gen)
    (evs : List Event) : IdsFresh gen (run gen evs) :=
  idsFresh_runFrom gen hinj {} evs (idsFresh_init gen)

/-- Number of roster entries carrying the presenter role. -/
def presenterCount (l : List Attendant) : Nat :=
  (l.filter (fun a => a.role = "teacher")).length

/-- The ids of the roster entries carrying the viewer role. -/
def viewerIds (l : List Attendant) : List Nat :=
  (l.filter (fun a => a.role = "student")).map Attendant.id

lemma filter_teacher_studentPart (l : List Client) :
    (l.map (fun s => (⟨s.id, s.name, "student"⟩ : Attendant))).filter
      (fun a => a.role = "teacher") = [] := by
  induction l with
  | nil => rfl
  | cons s l ih =>
    simp only [List.map_cons]
    simp [ih]

lemma presenterCount_snapshot (st : ServerState) :
    presenterCount (snapshot st) ≤ 1 := by
  unfold presenterCount snapshot
  cases st.teacherClient with
  | none => simp [List.filter_append, filter_teacher_studentPart]
  | some t => simp [List.filter_append, filter_teacher_studentPart]

lemma viewerIds_snapshot (st : ServerState) :
    viewerIds (snapshot st) = st.students.map Client.id := by
  unfold viewerIds snapshot
  have hs : ∀ l : List Client,
      ((l.map (fun s => (⟨s.id, s.name, "student"⟩ : Attendant))).filter
        (fun a => a.role = "student")).map Attendant.id = l.map Client.id := by
    intro l
    induction l with
    | nil => rfl
    | cons s l ih => simpa using ih
  cases st.teacherClient with
  | none => simpa using hs st.students
  | some t => simpa using hs st.students

/-- Claim C1: for every sequence of join events (any mix of Presenter and
Viewer joins, here: any event sequence at all), the roster snapshot
contains at most one participant with the presenter role, and the
viewer entries have pairwise-distinct ids; id freshness of
`generateId` is the injectivity hypothesis on the generator. -/
theorem c1_registry_invariant (gen : Nat → Nat) (hinj : Function.Injective gen)
    (evs : List Event) :
    presenterCount (snapshot (run gen evs)) ≤ 1 ∧
      (viewerIds (snapshot (run gen evs))).Nodup := by
  refine ⟨presenterCount_snapshot _, ?_⟩
  rw [viewerIds_snapshot]
  exact (idsFresh_run gen hinj evs).studentsNodup

/-- A teacher `join` message. -/
def joinT : Msg := { type := "join", role := some "teacher", name := some "T" }

/-- A student `join` message with the given display name. -/
def joinS (n : String) : Msg :=
  { type := "join", role := some "student", name := some n }

theorem c1_registry_invariant_witness :
    Function.Injective (fun n : Nat => n) ∧
      (presenterCount (snapshot (run (fun n => n)
          [Event.connect 0, Event.message 0 (some joinT),
           Event.connect 1, Event.message 1 (some (joinS "A")),
           Event.connect 2, Event.message 2 (some (joinS "B")),
           Event.connect 3, Event.message 3 (some joinT)])) ≤ 1 ∧
        (viewerIds (snapshot (run (fun n => n)
          [Event.connect 0, Event.message 0 (some joinT),
           Event.connect 1, Event.message 1 (some (joinS "A")),
           Event.connect 2, Event.message 2 (some (joinS "B")),
           Event.connect 3, Event.message 3 (some joinT)]))).Nodup) :=
  ⟨fun _ _ h => h,
   c1_registry_invariant (fun n => n) (fun _ _ h => h)
     [Event.connect 0, Event.message 0 (some joinT),
      Event.connect 1, Event.message 1 (some (joinS "A")),
      Event.connect 2, Event.message 2 (some (joinS "B")),
      Event.connect 3, Event.message 3 (some joinT)]⟩

/-- An id is absent from the whole registry: it is neither the
teacher's id nor any student's. -/
def NotInRegistry (i : Nat) (st : ServerState) : Prop :=
  (∀ t, st.teacherClient = some t → t.id ≠ i) ∧ ∀ s ∈ st.students, s.id ≠ i

lemma notInRegistry_handleClose (i : Nat) (st : ServerState) (c : Nat)
    (h : NotInRegistry i st) : NotInRegistry i (handleClose st c).1 := by
  unfold handleClose
  split
  · exact h
  · split
    · split_ifs
      · exact ⟨fun t ht => absurd ht (by simp [clearTeacher, removeConn]), fun s hs => h.2 s hs⟩
      · exact ⟨h.1, fun s hs => h.2 s (List.mem_of_mem_filter hs)⟩
    · exact ⟨h.1, fun s hs => h.2 s (List.mem_of_mem_filter hs)⟩

lemma notInRegistry_step (gen : Nat → Nat) (hinj : Function.Injective gen)
    (i : Nat) (st : ServerState) (ev : Event)
    (hb : ∃ k, k < st.nextId ∧ i = gen k) (h : NotInRegistry i st) :
    NotInRegistry i (postState gen st ev) ∧
      ∃ k, k < (postState gen st ev).nextId ∧ i = gen k := by
  obtain ⟨k, hk, hke⟩ := hb
  cases ev with
  | connect c => exact ⟨⟨h.1, h.2⟩, k, hk, hke⟩
  | message c data =>
    unfold postState
    rw [step_message_def]
    by_cases hc : (st.conns.find? (fun p => p.cid = c)).isSome
    · rw [if_pos hc]
      cases data with
      | none => exact ⟨h, k, hk, hke⟩
      | some m =>
        by_cases hj : m.type = "join"
        · show NotInRegistry i (handleMsg gen st c m).1 ∧
            ∃ k, k < (handleMsg gen st c m).1.nextId ∧ i = gen k
          unfold handleMsg
          rw [if_pos hj]
          unfold handleJoin
          have hfresh : gen st.nextId ≠ i := by
            rw [hke]
            intro hgen
            exact absurd (hinj hgen) (Nat.ne_of_gt hk)
          split_ifs
          · refine ⟨⟨?_, h.2⟩, k, Nat.lt_succ_of_lt hk, hke⟩
            intro t ht
            have ht' := Option.some.inj ht
            subst ht'
            exact hfresh
          · refine ⟨⟨h.1, ?_⟩, k, Nat.lt_succ_of_lt hk, hke⟩
            intro s hs
            rcases List.mem_append.mp hs with hs0 | hs1
            · exact h.2 s hs0
            · have : s = ⟨c, gen st.nextId, m.name, "student"⟩ := by simpa using hs1
              rw [this]
              exact hfresh
        · show NotInRegistry i (handleMsg gen st c m).1 ∧
            ∃ k, k < (handleMsg gen st c m).1.nextId ∧ i = gen k
          rw [handleMsg_fst_of_ne_join gen st c m hj]
          exact ⟨h, k, hk, hke⟩
    · rw [if_neg hc]
      exact ⟨h, k, hk, hke⟩
  | close c =>
    unfold postState
    rw [step_close_def]
    refine ⟨notInRegistry_handleClose i st c h, k, ?_, hke⟩
    show k < (handleClose st c).1.nextId
    unfold handleClose
    split
    · exact hk
    · split
      · split_ifs <;> exact hk
      · exact hk

lemma notInRegistry_runFrom (gen : Nat → Nat) (hinj : Function.Injective gen)
    (i : Nat) (st : ServerState) (evs : List Event)
    (hb : ∃ k, k < st.nextId ∧ i = gen k) (h : NotInRegistry i st) :
    NotInRegistry i (runFrom gen st evs) := by
  induction evs generalizing st with
  | nil => exact h
  | cons ev evs ih =>
    obtain ⟨h', hb'⟩ := notInRegistry_step gen hinj i st ev hb h
    exact ih (postState gen st ev) hb' h'

lemma not_mem_snapshot_ids (i : Nat) (st : ServerState)
    (h : NotInRegistry i st) : i ∉ (snapshot st).map Attendant.id := by
  unfold snapshot
  intro hmem
  rw [List.map_append, List.mem_append] at hmem
  rcases hmem with hm | hm
  · cases ht : st.teacherClient with
    | none => rw [ht] at hm; simp at hm
    | some t =>
      rw [ht] at hm
      simp only [List.map_cons, List.map_nil, List.mem_singleton] at hm
      exact h.1 t ht hm.symm
  · simp only [List.map_map, List.mem_map] at hm
    obtain ⟨s, hs, he⟩ := hm
    exact h.2 s hs he

lemma postState_join_teacher (gen : Nat → Nat) (st : ServerState) (c : Nat)
    (m : Msg) (hc : (st.conns.find? (fun p => p.cid = c)).isSome = true)
    (hm : m.type = "join") (hr : m.role = some "teacher") :
    postState gen st (.message c (some m)) = joinedTeacherState gen st c m := by
  unfold postState
  rw [step_message_def, if_pos hc]
  show (handleMsg gen st c m).1 = _
  unfold handleMsg
  rw [if_pos hm]
  unfold handleJoin
  rw [if_pos hr]

/-- Claim C4: a Presenter `join` while a presenter `t0` already exists
replaces the presenter slot with the new participant, and the
displaced presenter's id appears in no subsequently computed roster
snapshot, neither as presenter nor as viewer. -/
theorem c4_presenter_replaced (gen : Nat → Nat) (hinj : Function.Injective gen)
    (evs : List Event) (c : Nat) (m : Msg) (t0 : Client)
    (hm : m.type = "join") (hr : m.role = some "teacher")
    (ht : (run gen evs).teacherClient = some t0)
    (hc : ((run gen evs).conns.find? (fun p => p.cid = c)).isSome = true) :
    (postState gen (run gen evs) (.message c (some m))).teacherClient
        = some ⟨c, gen (run gen evs).nextId, m.name, "teacher"⟩ ∧
      ∀ evs', t0.id ∉
        (snapshot (runFrom gen (postState gen (run gen evs) (.message c (some m)))
          evs')).map Attendant.id := by
  have hIF := idsFresh_run gen hinj evs
  rw [postState_join_teacher gen (run gen evs) c m hc hm hr]
  refine ⟨rfl, ?_⟩
  intro evs'
  obtain ⟨k, hk, hke⟩ := hIF.teacherBound t0 ht
  have hnot : NotInRegistry t0.id (joinedTeacherState gen (run gen evs) c m) := by
    constructor
    · intro t htc
      have ht' := Option.some.inj htc
      subst ht'
      show gen (run gen evs).nextId ≠ t0.id
      rw [hke]
      intro hgen
      exact absurd (hinj hgen) (Nat.ne_of_gt hk)
    · intro s hs
      exact (hIF.teacherNotStudent t0 ht s hs).symm
  have hb : ∃ j, j < (joinedTeacherState gen (run gen evs) c m).nextId ∧
      t0.id = gen j := ⟨k, Nat.lt_succ_of_lt hk, hke⟩
  exact not_mem_snapshot_ids t0.id _
    (notInRegistry_runFrom gen hinj t0.id _ evs' hb hnot)

theorem c4_presenter_replaced_witness :
    ((joinT.type = "join" ∧ joinT.role = some "teacher") ∧
      (run (fun n => n) [Event.connect 0, Event.message 0 (some joinT),
          Event.connect 1]).teacherClient = some ⟨0, 0, some "T", "teacher"⟩ ∧
      ((run (fun n => n) [Event.connect 0, Event.message 0 (some joinT),
          Event.connect 1]).conns.find? (fun p => p.cid = 1)).isSome = true) ∧
    ((postState (fun n => n) (run (fun n => n) [Event.connect 0,
          Event.message 0 (some joinT), Event.connect 1])
        (.message 1 (some joinT))).teacherClient
          = some ⟨1, (run (fun n => n) [Event.connect 0,
              Event.message 0 (some joinT), Event.connect 1]).nextId,
              joinT.name, "teacher"⟩ ∧
      (0 : Nat) ∉
        (snapshot (runFrom (fun n => n)
          (postState (fun n => n) (run (fun n => n) [Event.connect 0,
              Event.message 0 (some joinT), Event.connect 1])
            (.message 1 (some joinT)))
          [Event.connect 2, Event.message 2 (some (joinS "A"))])).map
            Attendant.id) := by
  have h := c4_presenter_replaced (fun n => n) (fun _ _ h => h)
    [Event.connect 0, Event.message 0 (some joinT), Event.connect 1]
    1 joinT ⟨0, 0, some "T", "teacher"⟩ rfl rfl (by decide) (by decide)
  exact ⟨⟨⟨rfl, rfl⟩, by decide, by decide⟩,
    h.1, h.2 [Event.connect 2, Event.message 2 (some (joinS "A"))]⟩

lemma handleMsg_join_eq (gen : Nat → Nat) (st : ServerState) (c : Nat) (m : Msg)
    (hm : m.type = "join") : handleMsg gen st c m = handleJoin gen st c m := by
  unfold handleMsg
  rw [if_pos hm]

lemma outputs_message_some (gen : Nat → Nat) (st : ServerState) (c : Nat) (m : Msg)
    (hc : (st.conns.find? (fun p => p.cid = c)).isSome = true) :
    outputs gen st (.message c (some m)) = (handleMsg gen st c m).2 := by
  unfold outputs
  rw [step_message_def, if_pos hc]

lemma postState_message_some (gen : Nat → Nat) (st : ServerState) (c : Nat) (m : Msg)
    (hc : (st.conns.find? (fun p => p.cid = c)).isSome = true) :
    postState gen st (.message c (some m)) = (handleMsg gen st c m).1 := by
  unfold postState
  rw [step_message_def, if_pos hc]

lemma attMsgs_handleJoin (gen : Nat → Nat) (st : ServerState) (c : Nat) (m : Msg) :
    attMsgs (handleJoin gen st c m).2 =
      broadcastAttendantsList (handleJoin gen st c m).1 := by
  unfold handleJoin
  split_ifs
  · show attMsgs ((c, OutMsg.joined m.role (gen st.nextId)) ::
      broadcastAttendantsList (joinedTeacherState gen st c m)) = _
    rw [broadcastAttendantsList, attMsgs, List.filter_cons_of_neg (by simp [isAttListMsg])]
    exact attMsgs_broadcastList _ _
  · show attMsgs ((c, OutMsg.joined m.role (gen st.nextId)) ::
      (notifyTeacher st (OutMsg.studentJoined (gen st.nextId) m.name) ++
        broadcastAttendantsList (joinedStudentState gen st c m))) = _
    rw [broadcastAttendantsList, attMsgs, List.filter_cons_of_neg (by simp [isAttListMsg]),
      List.filter_append]
    have h1 : attMsgs (notifyTeacher st (OutMsg.studentJoined (gen st.nextId) m.name)) = [] :=
      attMsgs_notifyTeacher st _ rfl
    rw [attMsgs] at h1
    rw [h1]
    simpa [attMsgs] using
      attMsgs_broadcastList (joinConns gen st c m) (snapshot (joinedStudentState gen st c m))

lemma attMsgs_handleClose (st : ServerState) (c : Nat)
    (hc : (st.conns.find? (fun p => p.cid = c)).isSome = true) :
    attMsgs (handleClose st c).2 = broadcastAttendantsList (handleClose st c).1 := by
  unfold handleClose
  split
  · rename_i hf
    rw [hf] at hc
    simp at hc
  · rename_i p hf
    split
    · rename_i t ht
      split_ifs with he
      · rw [broadcastAttendantsList]
        exact attMsgs_broadcastList _ _
      · rw [attMsgs, List.filter_append]
        have h1 := attMsgs_notifyTeacher
          (removeStudent (removeConn st c) p.vars.clientId)
          (OutMsg.studentLeft p.vars.clientId) rfl
        rw [attMsgs] at h1
        rw [h1, broadcastAttendantsList]
        simpa [attMsgs] using attMsgs_broadcastList _ _
    · rename_i ht
      rw [broadcastAttendantsList]
      exact attMsgs_broadcastList _ _

lemma joinConns_cids (gen : Nat → Nat) (st : ServerState) (c : Nat) (m : Msg) :
    (joinConns gen st c m).map Conn.cid = st.conns.map Conn.cid := by
  unfold joinConns
  induction st.conns with
  | nil => rfl
  | cons q l ih =>
    by_cases hq : q.cid = c <;> simp [hq, ih]

lemma handleJoin_fst_conns (gen : Nat → Nat) (st : ServerState) (c : Nat) (m : Msg) :
    (handleJoin gen st c m).1.conns = joinConns gen st c m := by
  unfold handleJoin
  split_ifs <;> rfl

lemma mem_broadcastList (conns : List Conn) (roster : List Attendant) (c : Nat)
    (h : c ∈ conns.map Conn.cid) :
    (c, OutMsg.attendantsList roster) ∈ broadcastList conns roster := by
  unfold broadcastList
  obtain ⟨p, hp, he⟩ := List.mem_map.mp h
  exact List.mem_map.mpr ⟨p, hp, by rw [he]⟩

lemma attMsgs_subset (out : List (Nat × OutMsg)) : attMsgs out ⊆ out :=
  (List.filter_sublist _).subset

lemma cid_mem_of_find? (st : ServerState) (c : Nat)
    (hc : (st.conns.find? (fun p => p.cid = c)).isSome = true) :
    c ∈ st.conns.map Conn.cid := by
  rw [List.find?_isSome] at hc
  obtain ⟨p, hp, hpc⟩ := hc
  simp only [decide_eq_true_eq] at hpc
  exact List.mem_map.mpr ⟨p, hp, hpc⟩

/-- Claim C5: on every membership-affecting event (a `join` of either
role, or a socket closing), exactly one `attendants-list` message —
presenter first (if present) followed by all viewers, each as
`{id, name, role}` (that is, `snapshot` of the new state) — is sent to
every currently open transport, and on a join this includes the
transport of the participant that just joined. -/
theorem c5_roster_broadcast (gen : Nat → Nat) (st : ServerState) :
    (∀ c m, (st.conns.find? (fun p => p.cid = c)).isSome = true →
      m.type = "join" →
      attMsgs (outputs gen st (.message c (some m)))
          = broadcastList (postState gen st (.message c (some m))).conns
              (snapshot (postState gen st (.message c (some m)))) ∧
        (c, OutMsg.attendantsList (snapshot (postState gen st (.message c (some m)))))
          ∈ outputs gen st (.message c (some m))) ∧
    ∀ c, (st.conns.find? (fun p => p.cid = c)).isSome = true →
      attMsgs (outputs gen st (.close c))
        = broadcastList (postState gen st (.close c)).conns
            (snapshot (postState gen st (.close c))) := by
  constructor
  · intro c m hc hm
    rw [outputs_message_some gen st c m hc, postState_message_some gen st c m hc,
      handleMsg_join_eq gen st c m hm]
    have h1 := attMsgs_handleJoin gen st c m
    refine ⟨h1, ?_⟩
    have hcid : c ∈ (handleJoin gen st c m).1.conns.map Conn.cid := by
      rw [handleJoin_fst_conns, joinConns_cids]
      exact cid_mem_of_find? st c hc
    have hmem := mem_broadcastList (handleJoin gen st c m).1.conns
      (snapshot (handleJoin gen st c m).1) c hcid
    have hatt : (c, OutMsg.attendantsList (snapshot (handleJoin gen st c m).1))
        ∈ attMsgs (handleJoin gen st c m).2 := by
      rw [h1]
      exact hmem
    exact attMsgs_subset _ hatt
  · intro c hc
    show attMsgs (handleClose st c).2
      = broadcastList (handleClose st c).1.conns (snapshot (handleClose st c).1)
    exact attMsgs_handleClose st c hc

theorem c5_roster_broadcast_witness :
    ((((run (fun n => n) [Event.connect 0, Event.message 0 (some joinT),
          Event.connect 1]).conns.find?
            (fun p => p.cid = 1)).isSome = true ∧
      (joinS "A").type = "join") ∧
     attMsgs (outputs (fun n => n)
         (run (fun n => n) [Event.connect 0, Event.message 0 (some joinT),
           Event.connect 1]) (.message 1 (some (joinS "A"))))
       = broadcastList (postState (fun n => n)
             (run (fun n => n) [Event.connect 0, Event.message 0 (some joinT),
               Event.connect 1]) (.message 1 (some (joinS "A")))).conns
           (snapshot (postState (fun n => n)
             (run (fun n => n) [Event.connect 0, Event.message 0 (some joinT),
               Event.connect 1]) (.message 1 (some (joinS "A"))))) ∧
     (1, OutMsg.attendantsList (snapshot (postState (fun n => n)
         (run (fun n => n) [Event.connect 0, Event.message 0 (some joinT),
           Event.connect 1]) (.message 1 (some (joinS "A"))))))
       ∈ outputs (fun n => n)
           (run (fun n => n) [Event.connect 0, Event.message 0 (some joinT),
             Event.connect 1]) (.message 1 (some (joinS "A")))) ∧
    attMsgs (outputs (fun n => n)
        (run (fun n => n) [Event.connect 0, Event.message 0 (some joinT),
          Event.connect 1, Event.message 1 (some (joinS "A"))]) (.close 1))
      = broadcastList (postState (fun n => n)
            (run (fun n => n) [Event.connect 0, Event.message 0 (some joinT),
              Event.connect 1, Event.message 1 (some (joinS "A"))]) (.close 1)).conns
          (snapshot (postState (fun n => n)
            (run (fun n => n) [Event.connect 0, Event.message 0 (some joinT),
              Event.connect 1, Event.message 1 (some (joinS "A"))]) (.close 1))) := by
  have hjoin := (c5_roster_broadcast (fun n => n)
    (run (fun n => n) [Event.connect 0, Event.message 0 (some joinT),
      Event.connect 1])).1 1 (joinS "A") (by decide) rfl
  have hclose := (c5_roster_broadcast (fun n => n)
    (run (fun n => n) [Event.connect 0, Event.message 0 (some joinT),
      Event.connect 1, Event.message 1 (some (joinS "A"))])).2 1 (by decide)
  exact ⟨⟨⟨by decide, rfl⟩, hjoin.1, hjoin.2⟩, hclose⟩

lemma handleClose_student_branch (st : ServerState) (c : Nat) (p : Conn) (t : Client)
    (hfind : st.conns.find? (fun q => q.cid = c) = some p)
    (ht : st.teacherClient = some t)
    (hne : ¬ some t.id = p.vars.clientId)
    (hopen : isOpen (removeConn st c) t.ws = true) :
    handleClose st c =
      (removeStudent (removeConn st c) p.vars.clientId,
       (t.ws, OutMsg.studentLeft p.vars.clientId) ::
         broadcastAttendantsList (removeStudent (removeConn st c) p.vars.clientId)) := by
  unfold handleClose
  simp only [hfind, ht, if_neg hne]
  unfold notifyTeacher
  rw [show (removeStudent (removeConn st c) p.vars.clientId).teacherClient = some t from ht]
  show (removeStudent (removeConn st c) p.vars.clientId,
      (if isOpen (removeStudent (removeConn st c) p.vars.clientId) t.ws = true then
        [(t.ws, OutMsg.studentLeft p.vars.clientId)] else []) ++
        broadcastAttendantsList (removeStudent (removeConn st c) p.vars.clientId)) = _
  rw [if_pos (show isOpen (removeStudent (removeConn st c) p.vars.clientId) t.ws = true
    from hopen)]
  rfl

lemma slMsgs_cons_broadcast (w : Nat) (sid : Option Nat) (conns : List Conn)
    (roster : List Attendant) :
    slMsgs ((w, OutMsg.studentLeft sid) :: broadcastList conns roster)
      = [(w, OutMsg.studentLeft sid)] := by
  rw [slMsgs, List.filter_cons_of_pos (by simp [isStudentLeftMsg])]
  have h := slMsgs_broadcastList conns roster
  rw [slMsgs] at h
  rw [h]

lemma find?_removeStudent_self (st : ServerState) (v : Nat) :
    (removeStudent st (some v)).students.find? (fun s => some s.id = some v) = none := by
  rw [List.find?_eq_none]
  intro x hx
  have h := (List.mem_filter.mp hx).2
  simp only [decide_eq_true_eq] at h ⊢
  exact h

lemma ice_to_gone_viewer (gen : Nat → Nat) (st' : ServerState) (c' : Nat) (m : Msg)
    (hm : m.type = "ice-candidate") (htg : ¬ m.target = some "teacher")
    (hfind : st'.students.find? (fun s => some s.id = m.studentId) = none) :
    outputs gen st' (.message c' (some m)) = [] := by
  by_cases hc : (st'.conns.find? (fun p => p.cid = c')).isSome = true
  · rw [outputs_message_some gen st' c' m hc]
    unfold handleMsg
    rw [if_neg (by rw [hm]; decide), if_neg (by rw [hm]; decide),
      if_neg (by rw [hm]; decide), if_pos hm, if_neg htg]
    show forwardToStudent st' m.studentId _ = []
    unfold forwardToStudent
    rw [hfind]
  · unfold outputs
    rw [step_message_def, if_neg hc]

/-- An `ice-candidate` message addressed to viewer `v`. -/
def iceToViewer (v : Nat) : Msg :=
  { type := "ice-candidate", target := some "student",
    studentId := some v, candidate := some "x" }

/-- Counterexample to claim C2 as stated: in the run where a teacher
(conn 0, id 0) and two students (conn 1, id 1 and conn 2, id 2) have
joined and then viewer 1's transport closes, conn 2 is a remaining
open transport, yet the `student-left{studentId: 1}` message is not
delivered to it — it goes to the presenter only. -/
theorem c2_left_broadcast_counterexample :
    isOpen (postState (fun n => n)
        (run (fun n => n) [Event.connect 0, Event.message 0 (some joinT),
          Event.connect 1, Event.message 1 (some (joinS "A")),
          Event.connect 2, Event.message 2 (some (joinS "B"))]) (.close 1)) 2 = true ∧
    (2, OutMsg.studentLeft (some 1)) ∉
      outputs (fun n => n)
        (run (fun n => n) [Event.connect 0, Event.message 0 (some joinT),
          Event.connect 1, Event.message 1 (some (joinS "A")),
          Event.connect 2, Event.message 2 (some (joinS "B"))]) (.close 1) := by
  decide

/-- Claim C2 (amended): after viewer V (client id `v`, socket `c`)
leaves, exactly one `student-left{studentId: v}` is sent, and it goes
to the presenter's transport only (when a presenter with an open
transport exists), not to every remaining participant; and a
subsequent `ice-candidate` addressed to V produces no outbound
message. -/
theorem c2_viewer_left (gen : Nat → Nat) (st : ServerState) (c : Nat) (p : Conn)
    (v : Nat) (t : Client)
    (hfind : st.conns.find? (fun q => q.cid = c) = some p)
    (hv : p.vars.clientId = some v)
    (ht : st.teacherClient = some t)
    (hne : t.id ≠ v)
    (hopen : isOpen (removeConn st c) t.ws = true) :
    slMsgs (outputs gen st (.close c)) = [(t.ws, OutMsg.studentLeft (some v))] ∧
    ∀ c' (m : Msg), m.type = "ice-candidate" → ¬ m.target = some "teacher" →
      m.studentId = some v →
      outputs gen (postState gen st (.close c)) (.message c' (some m)) = [] := by
  have hne' : ¬ some t.id = p.vars.clientId := by
    rw [hv]
    intro h
    exact hne (Option.some.inj h)
  have heq := handleClose_student_branch st c p t hfind ht hne' hopen
  constructor
  · show slMsgs (handleClose st c).2 = _
    rw [heq, hv, broadcastAttendantsList]
    exact slMsgs_cons_broadcast _ _ _ _
  · intro c' m hm htg hsid
    have hpost : postState gen st (.close c)
        = removeStudent (removeConn st c) p.vars.clientId := by
      show (handleClose st c).1 = _
      rw [heq]
    rw [hpost, hv]
    apply ice_to_gone_viewer gen _ c' m hm htg
    rw [hsid]
    exact find?_removeStudent_self (removeConn st c) v

theorem c2_viewer_left_witness :
    ((run (fun n => n) [Event.connect 0, Event.message 0 (some joinT),
          Event.connect 1, Event.message 1 (some (joinS "A")),
          Event.connect 2, Event.message 2 (some (joinS "B"))]).conns.find?
            (fun q => q.cid = 1)
          = some ⟨1, ⟨some 1, some "student", some "A"⟩⟩ ∧
      (run (fun n => n) [Event.connect 0, Event.message 0 (some joinT),
          Event.connect 1, Event.message 1 (some (joinS "A")),
          Event.connect 2, Event.message 2 (some (joinS "B"))]).teacherClient
          = some ⟨0, 0, some "T", "teacher"⟩) ∧
    slMsgs (outputs (fun n => n)
        (run (fun n => n) [Event.connect 0, Event.message 0 (some joinT),
          Event.connect 1, Event.message 1 (some (joinS "A")),
          Event.connect 2, Event.message 2 (some (joinS "B"))]) (.close 1))
      = [(0, OutMsg.studentLeft (some 1))] ∧
    outputs (fun n => n)
        (postState (fun n => n)
          (run (fun n => n) [Event.connect 0, Event.message 0 (some joinT),
            Event.connect 1, Event.message 1 (some (joinS "A")),
            Event.connect 2, Event.message 2 (some (joinS "B"))]) (.close 1))
        (.message 0 (some (iceToViewer 1))) = [] := by
  have h := c2_viewer_left (fun n => n)
    (run (fun n => n) [Event.connect 0, Event.message 0 (some joinT),
      Event.connect 1, Event.message 1 (some (joinS "A")),
      Event.connect 2, Event.message 2 (some (joinS "B"))])
    1 ⟨1, ⟨some 1, some "student", some "A"⟩⟩ 1 ⟨0, 0, some "T", "teacher"⟩
    (by decide) rfl (by decide) (by decide) (by decide)
  exact ⟨⟨by decide, by decide⟩, h.1,
    h.2 0 (iceToViewer 1) rfl (by decide) rfl⟩

/-- Claim C8: when presenter P1 was displaced (the current presenter
`t2` has a different id than the closing socket's stored `clientId`)
and P1's transport then closes, the close handler takes the departing-
student branch and sends exactly one `student-left` carrying P1's id
to the current presenter `t2`. -/
theorem c8_displaced_presenter_left (gen : Nat → Nat) (st : ServerState) (c : Nat)
    (p : Conn) (t2 : Client)
    (hfind : st.conns.find? (fun q => q.cid = c) = some p)
    (ht : st.teacherClient = some t2)
    (hne : ¬ some t2.id = p.vars.clientId)
    (hopen : isOpen (removeConn st c) t2.ws = true) :
    slMsgs (outputs gen st (.close c)) = [(t2.ws, OutMsg.studentLeft p.vars.clientId)] := by
  have heq := handleClose_student_branch st c p t2 hfind ht hne hopen
  show slMsgs (handleClose st c).2 = _
  rw [heq, broadcastAttendantsList]
  exact slMsgs_cons_broadcast _ _ _ _

theorem c8_displaced_presenter_left_witness :
    (((run (fun n => n) [Event.connect 0, Event.message 0 (some joinT),
          Event.connect 1, Event.message 1 (some joinT)]).conns.find?
            (fun q => q.cid = 0)
          = some ⟨0, ⟨some 0, some "teacher", some "T"⟩⟩ ∧
      (run (fun n => n) [Event.connect 0, Event.message 0 (some joinT),
          Event.connect 1, Event.message 1 (some joinT)]).teacherClient
          = some ⟨1, 1, some "T", "teacher"⟩) ∧
     (run (fun n => n) [Event.connect 0, Event.message 0 (some joinT),
          Event.connect 1, Event.message 1 (some joinT)]).students = []) ∧
    slMsgs (outputs (fun n => n)
        (run (fun n => n) [Event.connect 0, Event.message 0 (some joinT),
          Event.connect 1, Event.message 1 (some joinT)]) (.close 0))
      = [(1, OutMsg.studentLeft (some 0))] := by
  have h := c8_displaced_presenter_left (fun n => n)
    (run (fun n => n) [Event.connect 0, Event.message 0 (some joinT),
      Event.connect 1, Event.message 1 (some joinT)])
    0 ⟨0, ⟨some 0, some "teacher", some "T"⟩⟩ ⟨1, 1, some "T", "teacher"⟩
    (by decide) (by decide) (by decide) (by decide)
  exact ⟨⟨⟨by decide, by decide⟩, by decide⟩, h⟩

/-- A stale `answer` message naming client id 1. -/
def ansStale : Msg := { type := "answer", studentId := some 1, sdp := some "x" }

/-- Counterexample to claim C3 as stated: after viewer 1 (conn 1) has
left (students list empty), an `answer{studentId: 1}` sent from conn 2
is not dropped — it is relayed to the presenter on conn 0. -/
theorem c3_stale_answer_counterexample :
    (run (fun n => n) [Event.connect 0, Event.message 0 (some joinT),
        Event.connect 1, Event.message 1 (some (joinS "A")),
        Event.connect 2, Event.close 1]).students = [] ∧
    outputs (fun n => n)
        (run (fun n => n) [Event.connect 0, Event.message 0 (some joinT),
          Event.connect 1, Event.message 1 (some (joinS "A")),
          Event.connect 2, Event.close 1])
        (.message 2 (some ansStale))
      = [(0, OutMsg.answer (some 1) (some "x"))] := by
  decide

/-- Claim C3 (amended): an `answer` message is relayed to the current
presenter's transport whenever a presenter with an open transport
exists, regardless of whether the carried `studentId` names a viewer
still in the registry — the viewer registry is not consulted — and the
registry is left unchanged.  It is dropped only when no presenter with
an open transport exists. -/
theorem c3_stale_answer_relayed (gen : Nat → Nat) (st : ServerState) (c : Nat)
    (m : Msg) (hc : (st.conns.find? (fun p => p.cid = c)).isSome = true)
    (hm : m.type = "answer") :
    postState gen st (.message c (some m)) = st ∧
    outputs gen st (.message c (some m))
      = notifyTeacher st (OutMsg.answer m.studentId m.sdp) := by
  rw [postState_message_some gen st c m hc, outputs_message_some gen st c m hc]
  unfold handleMsg
  rw [if_neg (by rw [hm]; decide), if_neg (by rw [hm]; decide), if_pos hm]
  exact ⟨rfl, rfl⟩

theorem c3_stale_answer_relayed_witness :
    (((run (fun n => n) [Event.connect 0, Event.message 0 (some joinT),
          Event.connect 1, Event.message 1 (some (joinS "A")),
          Event.connect 2, Event.close 1]).conns.find?
            (fun p => p.cid = 2)).isSome = true ∧
      ansStale.type = "answer") ∧
    postState (fun n => n)
        (run (fun n => n) [Event.connect 0, Event.message 0 (some joinT),
          Event.connect 1, Event.message 1 (some (joinS "A")),
          Event.connect 2, Event.close 1]) (.message 2 (some ansStale))
      = run (fun n => n) [Event.connect 0, Event.message 0 (some joinT),
          Event.connect 1, Event.message 1 (some (joinS "A")),
          Event.connect 2, Event.close 1] ∧
    outputs (fun n => n)
        (run (fun n => n) [Event.connect 0, Event.message 0 (some joinT),
          Event.connect 1, Event.message 1 (some (joinS "A")),
          Event.connect 2, Event.close 1]) (.message 2 (some ansStale))
      = notifyTeacher
          (run (fun n => n) [Event.connect 0, Event.message 0 (some joinT),
            Event.connect 1, Event.message 1 (some (joinS "A")),
            Event.connect 2, Event.close 1])
          (OutMsg.answer ansStale.studentId ansStale.sdp) := by
  have h := c3_stale_answer_relayed (fun n => n)
    (run (fun n => n) [Event.connect 0, Event.message 0 (some joinT),
      Event.connect 1, Event.message 1 (some (joinS "A")),
      Event.connect 2, Event.close 1]) 2 ansStale (by decide) rfl
  exact ⟨⟨by decide, rfl⟩, h.1, h.2⟩

lemma forwardToStudent_eq_nil (st : ServerState) (sid : Option Nat) (m : OutMsg)
    (htgt : ∀ s, st.students.find? (fun s' => some s'.id = sid) = some s →
      isOpen st s.ws = false) :
    forwardToStudent st sid m = [] := by
  unfold forwardToStudent
  split
  · rename_i s hf
    rw [htgt s hf]
    simp
  · rfl

/-- Claim C6: an `offer`, or an `ice-candidate` not targeted at the
teacher, whose target viewer id is not in the registry or whose
target viewer's transport is not open, produces no outbound message
on any transport and leaves the whole server state (in particular the
registry) unchanged. -/
theorem c6_forward_unknown_noop (gen : Nat → Nat) (st : ServerState) (c : Nat)
    (m : Msg)
    (hk : m.type = "offer" ∨ (m.type = "ice-candidate" ∧ ¬ m.target = some "teacher"))
    (htgt : ∀ s, st.students.find? (fun s' => some s'.id = m.studentId) = some s →
      isOpen st s.ws = false) :
    postState gen st (.message c (some m)) = st ∧
    outputs gen st (.message c (some m)) = [] := by
  by_cases hc : (st.conns.find? (fun p => p.cid = c)).isSome = true
  · rw [postState_message_some gen st c m hc, outputs_message_some gen st c m hc]
    rcases hk with hm | ⟨hm, htg⟩
    · unfold handleMsg
      rw [if_neg (by rw [hm]; decide), if_pos hm]
      exact ⟨rfl, forwardToStudent_eq_nil st m.studentId _ htgt⟩
    · unfold handleMsg
      rw [if_neg (by rw [hm]; decide), if_neg (by rw [hm]; decide),
        if_neg (by rw [hm]; decide), if_pos hm, if_neg htg]
      exact ⟨rfl, forwardToStudent_eq_nil st m.studentId _ htgt⟩
  · constructor
    · unfold postState
      rw [step_message_def, if_neg hc]
    · unfold outputs
      rw [step_message_def, if_neg hc]

/-- An `offer` to a viewer id absent from the registry. -/
def offerUnknown : Msg := { type := "offer", studentId := some 99, sdp := some "s" }

theorem c6_forward_unknown_noop_witness :
    (offerUnknown.type = "offer" ∨ (offerUnknown.type = "ice-candidate" ∧
      ¬ offerUnknown.target = some "teacher")) ∧
    postState (fun n => n)
        (run (fun n => n) [Event.connect 0, Event.message 0 (some joinT),
          Event.connect 1, Event.message 1 (some (joinS "A"))])
        (.message 0 (some offerUnknown))
      = run (fun n => n) [Event.connect 0, Event.message 0 (some joinT),
          Event.connect 1, Event.message 1 (some (joinS "A"))] ∧
    outputs (fun n => n)
        (run (fun n => n) [Event.connect 0, Event.message 0 (some joinT),
          Event.connect 1, Event.message 1 (some (joinS "A"))])
        (.message 0 (some offerUnknown)) = [] := by
  have h := c6_forward_unknown_noop (fun n => n)
    (run (fun n => n) [Event.connect 0, Event.message 0 (some joinT),
      Event.connect 1, Event.message 1 (some (joinS "A"))])
    0 offerUnknown (Or.inl rfl)
    (by
      intro s hs
      rw [show (run (fun n => n) [Event.connect 0, Event.message 0 (some joinT),
        Event.connect 1, Event.message 1 (some (joinS "A"))]).students.find?
          (fun s' => some s'.id = offerUnknown.studentId) = none by decide] at hs
      exact Option.noConfusion hs)
  exact ⟨Or.inl rfl, h.1, h.2⟩

/-- Claim C7: a non-parseable inbound payload, or a parseable message
whose kind is none of join/offer/answer/ice-candidate, produces no
outbound message, leaves the whole server state unchanged (so the
registry is untouched and the sender's transport stays open), and is
only logged locally. -/
theorem c7_malformed_or_unknown_dropped (gen : Nat → Nat) (st : ServerState)
    (c : Nat) (data : Option Msg)
    (h : data = none ∨ ∃ m, data = some m ∧ ¬ m.type = "join" ∧ ¬ m.type = "offer" ∧
      ¬ m.type = "answer" ∧ ¬ m.type = "ice-candidate") :
    postState gen st (.message c data) = st ∧
    outputs gen st (.message c data) = [] := by
  rcases h with rfl | ⟨m, rfl, h1, h2, h3, h4⟩
  · constructor
    · unfold postState
      rw [step_message_def]
      split_ifs <;> rfl
    · unfold outputs
      rw [step_message_def]
      split_ifs <;> rfl
  · by_cases hc : (st.conns.find? (fun p => p.cid = c)).isSome = true
    · rw [postState_message_some gen st c m hc, outputs_message_some gen st c m hc]
      unfold handleMsg
      rw [if_neg h1, if_neg h2, if_neg h3, if_neg h4]
      exact ⟨rfl, rfl⟩
    · constructor
      · unfold postState
        rw [step_message_def, if_neg hc]
      · unfold outputs
        rw [step_message_def, if_neg hc]

/-- A parseable message of unrecognized kind. -/
def bogusMsg : Msg := { type := "bogus" }

theorem c7_malformed_or_unknown_dropped_witness :
    (postState (fun n => n)
        (run (fun n => n) [Event.connect 0, Event.message 0 (some joinT)])
        (.message 0 none)
      = run (fun n => n) [Event.connect 0, Event.message 0 (some joinT)] ∧
     outputs (fun n => n)
        (run (fun n => n) [Event.connect 0, Event.message 0 (some joinT)])
        (.message 0 none) = []) ∧
    postState (fun n => n)
        (run (fun n => n) [Event.connect 0, Event.message 0 (some joinT)])
        (.message 0 (some bogusMsg))
      = run (fun n => n) [Event.connect 0, Event.message 0 (some joinT)] ∧
    outputs (fun n => n)
        (run (fun n => n) [Event.connect 0, Event.message 0 (some joinT)])
        (.message 0 (some bogusMsg)) = [] := by
  have ha := c7_malformed_or_unknown_dropped (fun n => n)
    (run (fun n => n) [Event.connect 0, Event.message 0 (some joinT)])
    0 none (Or.inl rfl)
  have hb := c7_malformed_or_unknown_dropped (fun n => n)
    (run (fun n => n) [Event.connect 0, Event.message 0 (some joinT)])
    0 (some bogusMsg)
    (Or.inr ⟨bogusMsg, rfl, by decide, by decide, by decide, by decide⟩)
  exact ⟨⟨ha.1, ha.2⟩, hb.1, hb.2⟩

/-- Claim C9: routing of `offer`, `answer` and `ice-candidate` messages
depends only on the message's fields and the registry, never on the
sending connection's identity, role or join status: two different
connected senders delivering the same message in the same state give
the same new state and the same outbound messages. -/
theorem c9_sender_independent_routing (gen : Nat → Nat) (st : ServerState)
    (c1 c2 : Nat) (m : Msg)
    (h1 : (st.conns.find? (fun p => p.cid = c1)).isSome = true)
    (h2 : (st.conns.find? (fun p => p.cid = c2)).isSome = true)
    (hk : m.type = "offer" ∨ m.type = "answer" ∨ m.type = "ice-candidate") :
    step gen st (.message c1 (some m)) = step gen st (.message c2 (some m)) := by
  rw [step_message_def, step_message_def, if_pos h1, if_pos h2]
  show handleMsg gen st c1 m = handleMsg gen st c2 m
  have hj : ¬ m.type = "join" := by
    rcases hk with h | h | h <;> rw [h] <;> decide
  unfold handleMsg
  rw [if_neg hj, if_neg hj]

theorem c9_sender_independent_routing_witness :
    (((run (fun n => n) [Event.connect 0, Event.message 0 (some joinT),
          Event.connect 1, Event.message 1 (some (joinS "A")),
          Event.connect 2]).conns.find? (fun p => p.cid = 2)).isSome = true ∧
      ((run (fun n => n) [Event.connect 0, Event.message 0 (some joinT),
          Event.connect 1, Event.message 1 (some (joinS "A")),
          Event.connect 2]).conns.find? (fun p => p.cid = 1)).isSome = true) ∧
    step (fun n => n)
        (run (fun n => n) [Event.connect 0, Event.message 0 (some joinT),
          Event.connect 1, Event.message 1 (some (joinS "A")),
          Event.connect 2]) (.message 2 (some ansStale))
      = step (fun n => n)
          (run (fun n => n) [Event.connect 0, Event.message 0 (some joinT),
            Event.connect 1, Event.message 1 (some (joinS "A")),
            Event.connect 2]) (.message 1 (some ansStale)) := by
  have h := c9_sender_independent_routing (fun n => n)
    (run (fun n => n) [Event.connect 0, Event.message 0 (some joinT),
      Event.connect 1, Event.message 1 (some (joinS "A")),
      Event.connect 2]) 2 1 ansStale (by decide) (by decide)
    (Or.inr (Or.inl rfl))
  exact ⟨⟨by decide, by decide⟩, h⟩

/-- An orphaned viewer entry: a student entry whose id `i` is stored in
no live socket's `clientId` closure variable, so no future close event
can ever filter it out. -/
def StaleEntry (gen : Nat → Nat) (i : Nat) (e : Client) (st : ServerState) : Prop :=
  e ∈ st.students ∧ e.id = i ∧ (∃ k, k < st.nextId ∧ i = gen k) ∧
    ∀ q ∈ st.conns, q.vars.clientId ≠ some i

lemma staleEntry_joinConns (gen : Nat → Nat) (st : ServerState) (c : Nat) (m : Msg)
    (i : Nat) (hfresh : gen st.nextId ≠ i)
    (hconns : ∀ q ∈ st.conns, q.vars.clientId ≠ some i) :
    ∀ q ∈ joinConns gen st c m, q.vars.clientId ≠ some i := by
  intro q hq
  obtain ⟨p0, hp0, he⟩ := List.mem_map.mp hq
  by_cases hc : p0.cid = c
  · rw [if_pos hc] at he
    rw [← he]
    intro hcontra
    exact hfresh (Option.some.inj hcontra)
  · rw [if_neg hc] at he
    rw [← he]
    exact hconns p0 hp0

lemma staleEntry_step (gen : Nat → Nat) (hinj : Function.Injective gen)
    (i : Nat) (e : Client) (st : ServerState) (ev : Event)
    (h : StaleEntry gen i e st) : StaleEntry gen i e (postState gen st ev) := by
  obtain ⟨hmem, hei, ⟨k, hk, hik⟩, hconns⟩ := h
  have hfresh : gen st.nextId ≠ i := by
    rw [hik]
    intro hgen
    exact absurd (hinj hgen) (Nat.ne_of_gt hk)
  cases ev with
  | connect c =>
    refine ⟨hmem, hei, ⟨k, hk, hik⟩, ?_⟩
    intro q hq
    rcases List.mem_append.mp hq with h0 | h1
    · exact hconns q h0
    · have : q = ⟨c, ⟨none, none, none⟩⟩ := by simpa using h1
      rw [this]
      simp
  | message c data =>
    unfold postState
    rw [step_message_def]
    by_cases hc : (st.conns.find? (fun p => p.cid = c)).isSome = true
    · rw [if_pos hc]
      cases data with
      | none => exact ⟨hmem, hei, ⟨k, hk, hik⟩, hconns⟩
      | some m =>
        by_cases hj : m.type = "join"
        · show StaleEntry gen i e (handleMsg gen st c m).1
          rw [handleMsg_join_eq gen st c m hj]
          unfold handleJoin
          split_ifs
          · exact ⟨hmem, hei, ⟨k, Nat.lt_succ_of_lt hk, hik⟩,
              staleEntry_joinConns gen st c m i hfresh hconns⟩
          · exact ⟨List.mem_append.mpr (Or.inl hmem), hei,
              ⟨k, Nat.lt_succ_of_lt hk, hik⟩,
              staleEntry_joinConns gen st c m i hfresh hconns⟩
        · show StaleEntry gen i e (handleMsg gen st c m).1
          rw [handleMsg_fst_of_ne_join gen st c m hj]
          exact ⟨hmem, hei, ⟨k, hk, hik⟩, hconns⟩
    · rw [if_neg hc]
      exact ⟨hmem, hei, ⟨k, hk, hik⟩, hconns⟩
  | close c =>
    show StaleEntry gen i e (handleClose st c).1
    unfold handleClose
    split
    · exact ⟨hmem, hei, ⟨k, hk, hik⟩, hconns⟩
    · rename_i p hf
      have hp : p.vars.clientId ≠ some i :=
        hconns p (List.mem_of_find?_eq_some hf)
      have hconns' : ∀ q ∈ (removeConn st c).conns, q.vars.clientId ≠ some i := by
        intro q hq
        exact hconns q (List.mem_of_mem_filter hq)
      have hmem' : e ∈ (st.students.filter (fun s => ¬ some s.id = p.vars.clientId)) := by
        refine List.mem_filter.mpr ⟨hmem, ?_⟩
        simp only [decide_eq_true_eq]
        rw [hei]
        intro hcontra
        exact hp hcontra.symm
      split
      · split_ifs
        · exact ⟨hmem, hei, ⟨k, hk, hik⟩, hconns'⟩
        · exact ⟨hmem', hei, ⟨k, hk, hik⟩, hconns'⟩
      · exact ⟨hmem', hei, ⟨k, hk, hik⟩, hconns'⟩

lemma staleEntry_runFrom (gen : Nat → Nat) (hinj : Function.Injective gen)
    (i : Nat) (e : Client) (st : ServerState) (evs : List Event)
    (h : StaleEntry gen i e st) : StaleEntry gen i e (runFrom gen st evs) := by
  induction evs generalizing st with
  | nil => exact h
  | cons ev evs ih => exact ih (postState gen st ev) (staleEntry_step gen hinj i e st ev h)

lemma mem_snapshot_ids (st : ServerState) (s : Client) (h : s ∈ st.students) :
    s.id ∈ (snapshot st).map Attendant.id := by
  unfold snapshot
  rw [List.map_append, List.mem_append]
  right
  rw [List.map_map]
  exact List.mem_map.mpr ⟨s, h, rfl⟩

lemma find?_map_update (l : List Conn) (c : Nat) (p : Conn) (nv : ConnVars)
    (hfind : l.find? (fun q => q.cid = c) = some p) :
    (l.map (fun q => if q.cid = c then ⟨q.cid, nv⟩ else q)).find?
        (fun q => q.cid = c) = some ⟨c, nv⟩ := by
  induction l with
  | nil => simp at hfind
  | cons q l ih =>
    by_cases hq : q.cid = c
    · simp only [List.map_cons, if_pos hq]
      rw [List.find?_cons_of_pos _ (by simpa using hq), hq]
    · rw [List.find?_cons_of_neg _ (by simpa using hq)] at hfind
      simp only [List.map_cons, if_neg hq]
      rw [List.find?_cons_of_neg _ (by simpa using hq)]
      exact ih hfind

lemma find?_joinConns (gen : Nat → Nat) (st : ServerState) (c : Nat) (m : Msg)
    (p : Conn) (hfind : st.conns.find? (fun q => q.cid = c) = some p) :
    (joinConns gen st c m).find? (fun q => q.cid = c)
      = some ⟨c, ⟨some (gen st.nextId), m.role, m.name⟩⟩ := by
  unfold joinConns
  exact find?_map_update st.conns c p _ hfind

lemma postState_join_student (gen : Nat → Nat) (st : ServerState) (c : Nat) (m : Msg)
    (hc : (st.conns.find? (fun p => p.cid = c)).isSome = true)
    (hm : m.type = "join") (hr : ¬ m.role = some "teacher") :
    postState gen st (.message c (some m)) = joinedStudentState gen st c m := by
  rw [postState_message_some gen st c m hc, handleMsg_join_eq gen st c m hm]
  unfold handleJoin
  rw [if_neg hr]

lemma joinedStudentState_students (gen : Nat → Nat) (st : ServerState) (c : Nat)
    (m : Msg) : (joinedStudentState gen st c m).students
      = st.students ++ [⟨c, gen st.nextId, m.name, "student"⟩] := rfl

lemma removeConn_students (st : ServerState) (c : Nat) :
    (removeConn st c).students = st.students := rfl

lemma removeStudent_students (st : ServerState) (cid? : Option Nat) :
    (removeStudent st cid?).students
      = st.students.filter (fun s => ¬ some s.id = cid?) := rfl

lemma removeStudent_conns (st : ServerState) (cid? : Option Nat) :
    (removeStudent st cid?).conns = st.conns := rfl

lemma removeConn_conns (st : ServerState) (c : Nat) :
    (removeConn st c).conns = st.conns.filter (fun q => ¬ q.cid = c) := rfl

lemma joinedStudentState_conns (gen : Nat → Nat) (st : ServerState) (c : Nat)
    (m : Msg) : (joinedStudentState gen st c m).conns = joinConns gen st c m := rfl

/-- Claim C10: if a connected transport `c` that already produced a
viewer entry `e` (id `i`) sends a second Viewer `join`, a second entry
with the fresh id `gen st.nextId` is appended without removing `e`;
when `c` then closes, only the entry bearing the most recently
assigned id is removed, and `e` remains in every subsequently computed
snapshot although its transport is closed. -/
theorem c10_second_join_stale_entry (gen : Nat → Nat) (hinj : Function.Injective gen)
    (st : ServerState) (c : Nat) (p : Conn) (e : Client) (i k : Nat) (m : Msg)
    (hfind : st.conns.find? (fun q => q.cid = c) = some p)
    (he : e ∈ st.students) (hei : e.id = i)
    (hk : k < st.nextId) (hik : i = gen k)
    (hothers : ∀ q ∈ st.conns, ¬ q.cid = c → q.vars.clientId ≠ some i)
    (hteacher : ∀ t, st.teacherClient = some t → ¬ some t.id = some (gen st.nextId))
    (hm : m.type = "join") (hr : ¬ m.role = some "teacher") :
    (postState gen st (.message c (some m))).students
        = st.students ++ [⟨c, gen st.nextId, m.name, "student"⟩] ∧
    gen st.nextId ≠ i ∧
    e ∈ (postState gen (postState gen st (.message c (some m))) (.close c)).students ∧
    (∀ s ∈ (postState gen (postState gen st (.message c (some m))) (.close c)).students,
      s.id ≠ gen st.nextId) ∧
    ∀ evs', e.id ∈ (snapshot (runFrom gen
      (postState gen (postState gen st (.message c (some m))) (.close c)) evs')).map
        Attendant.id := by
  have hc : (st.conns.find? (fun q => q.cid = c)).isSome = true := by
    rw [hfind]
    rfl
  have hfresh : gen st.nextId ≠ i := by
    rw [hik]
    intro hgen
    exact absurd (hinj hgen) (Nat.ne_of_gt hk)
  have h1 := postState_join_student gen st c m hc hm hr
  rw [h1]
  have hfind1 : (joinedStudentState gen st c m).conns.find? (fun q => q.cid = c)
      = some ⟨c, ⟨some (gen st.nextId), m.role, m.name⟩⟩ :=
    find?_joinConns gen st c m p hfind
  have hst2 : postState gen (joinedStudentState gen st c m) (.close c)
      = removeStudent (removeConn (joinedStudentState gen st c m) c)
          (some (gen st.nextId)) := by
    cases htc : st.teacherClient with
    | none =>
      show (handleClose (joinedStudentState gen st c m) c).1 = _
      unfold handleClose
      simp only [hfind1,
        show (joinedStudentState gen st c m).teacherClient = none from htc]
    | some t =>
      show (handleClose (joinedStudentState gen st c m) c).1 = _
      unfold handleClose
      simp only [hfind1,
        show (joinedStudentState gen st c m).teacherClient = some t from htc,
        if_neg (hteacher t htc)]
  rw [hst2, removeStudent_students, removeConn_students, joinedStudentState_students]
  have hmem2 : e ∈ (st.students ++ [(⟨c, gen st.nextId, m.name, "student"⟩ : Client)]).filter
      (fun s : Client => ¬ some s.id = some (gen st.nextId)) := by
    refine List.mem_filter.mpr ⟨List.mem_append.mpr (Or.inl he), ?_⟩
    simp only [decide_eq_true_eq]
    rw [hei]
    intro hcontra
    exact hfresh (Option.some.inj hcontra).symm
  refine ⟨rfl, hfresh, hmem2, ?_, ?_⟩
  · intro s hs
    have h5 := (List.mem_filter.mp hs).2
    simp only [decide_eq_true_eq] at h5
    intro hcontra
    exact h5 (by rw [hcontra])
  · intro evs'
    have hstale : StaleEntry gen i e (removeStudent
        (removeConn (joinedStudentState gen st c m) c) (some (gen st.nextId))) := by
      refine ⟨hmem2, hei, ⟨k, Nat.lt_succ_of_lt hk, hik⟩, ?_⟩
      intro q hq
      rw [removeStudent_conns, removeConn_conns, joinedStudentState_conns] at hq
      have h0 := List.mem_filter.mp hq
      have hqc : ¬ q.cid = c := by simpa using h0.2
      obtain ⟨p0, hp0, hep⟩ := List.mem_map.mp h0.1
      by_cases hpc : p0.cid = c
      · rw [if_pos hpc] at hep
        rw [← hep] at hqc
        exact absurd hpc hqc
      · rw [if_neg hpc] at hep
        rw [← hep]
        exact hothers p0 hp0 hpc
    have hrun := staleEntry_runFrom gen hinj i e _ evs' hstale
    exact mem_snapshot_ids _ e hrun.1

theorem c10_second_join_stale_entry_witness :
    ((run (fun n => n) [Event.connect 0, Event.message 0 (some joinT),
        Event.connect 1, Event.message 1 (some (joinS "A"))]).conns.find?
          (fun q => q.cid = 1)
        = some ⟨1, ⟨some 1, some "student", some "A"⟩⟩ ∧
      (⟨1, 1, some "A", "student"⟩ : Client) ∈
        (run (fun n => n) [Event.connect 0, Event.message 0 (some joinT),
          Event.connect 1, Event.message 1 (some (joinS "A"))]).students ∧
      1 < (run (fun n => n) [Event.connect 0, Event.message 0 (some joinT),
          Event.connect 1, Event.message 1 (some (joinS "A"))]).nextId) ∧
    (postState (fun n => n)
        (run (fun n => n) [Event.connect 0, Event.message 0 (some joinT),
          Event.connect 1, Event.message 1 (some (joinS "A"))])
        (.message 1 (some (joinS "A")))).students
      = (run (fun n => n) [Event.connect 0, Event.message 0 (some joinT),
          Event.connect 1, Event.message 1 (some (joinS "A"))]).students
        ++ [⟨1, (fun n : Nat => n) (run (fun n => n) [Event.connect 0,
            Event.message 0 (some joinT), Event.connect 1,
            Event.message 1 (some (joinS "A"))]).nextId, some "A", "student"⟩] ∧
    (⟨1, 1, some "A", "student"⟩ : Client) ∈
      (postState (fun n => n)
        (postState (fun n => n)
          (run (fun n => n) [Event.connect 0, Event.message 0 (some joinT),
            Event.connect 1, Event.message 1 (some (joinS "A"))])
          (.message 1 (some (joinS "A")))) (.close 1)).students ∧
    (1 : Nat) ∈ (snapshot (runFrom (fun n => n)
      (postState (fun n => n)
        (postState (fun n => n)
          (run (fun n => n) [Event.connect 0, Event.message 0 (some joinT),
            Event.connect 1, Event.message 1 (some (joinS "A"))])
          (.message 1 (some (joinS "A")))) (.close 1))
      [Event.connect 2, Event.message 2 (some (joinS "B"))])).map Attendant.id := by
  have h := c10_second_join_stale_entry (fun n => n) (fun _ _ h => h)
    (run (fun n => n) [Event.connect 0, Event.message 0 (some joinT),
      Event.connect 1, Event.message 1 (some (joinS "A"))])
    1 ⟨1, ⟨some 1, some "student", some "A"⟩⟩ ⟨1, 1, some "A", "student"⟩ 1 1
    (joinS "A") (by decide) (by decide) rfl (by decide) rfl (by decide)
    (by
      intro t ht
      rw [show (run (fun n => n) [Event.connect 0, Event.message 0 (some joinT),
        Event.connect 1, Event.message 1 (some (joinS "A"))]).teacherClient
          = some (⟨0, 0, some "T", "teacher"⟩ : Client) from by decide] at ht
      have h2 := Option.some.inj ht
      subst h2
      decide)
    rfl (by decide)
  exact ⟨⟨by decide, by decide, by decide⟩, h.1, h.2.2.1,
    h.2.2.2.2 [Event.connect 2, Event.message 2 (some (joinS "B"))]⟩
